import Mathlib

/-!
Shallow embedding of the TCP file client (src/main.go) and verification of
its specification claims.

The program is sequential: main dials the server, opens the log file,
validates a hard-coded filename, and calls downloadFile, which writes the
request line, creates the output file, and copies the connection stream into
the file in a loop with a re-armed read deadline.  We model the environment
(outcomes of the OS and network calls) explicitly and make each run produce
an event trace, the final file contents, the log lines, the standard-output
lines and the exit code.  Go semantics that matter here and are modelled
faithfully: deferred calls run when the enclosing function returns normally,
and os.Exit terminates the process immediately without running deferred
calls.
-/

/-- Outcome of a single conn.Read call, as seen by the client:
end of stream, a timeout, or another transport error. -/
inductive ReadErr where
  | eof
  | timeout (msg : String)
  | other (msg : String)
deriving DecidableEq

/-- The message text carried by a read error, used by error wrapping. -/
def ReadErr.message : ReadErr → String
  | .eof => "EOF"
  | .timeout m => m
  | .other m => m

/-- Environment behaviour of one iteration of the receive loop: the outcome
of conn.SetReadDeadline, the bytes and error returned by conn.Read, and the
outcome of file.Write. -/
structure IterStep where
  deadlineErr : Option String
  readBytes : List Nat
  readErr : Option ReadErr
  fileWriteErr : Option String
deriving DecidableEq

/-- Observable events of a program run, in order. -/
inductive Ev where
  | dialEv
  | connClose
  | openLog
  | logClose
  | logWrite (line : String)
  | printStdout (line : String)
  | validateCall (name : String)
  | writeReq (line : String)
  | createFile (name : String)
  | setDeadline
  | connRead
  | fileWrite (bytes : List Nat)
  | fileClose
  | exitProc (code : Nat)
deriving DecidableEq

/-- Result of downloadFile: success, an error value, or (a model artifact)
the connection behaviour list was exhausted with the loop still running,
which corresponds to a read that blocks forever. -/
inductive DLResult where
  | ok
  | fail (msg : String)
  | blocked
deriving DecidableEq

/-- Output of the receive loop: its result, the bytes written to the output
file so far, and the events it emitted. -/
structure LoopOut where
  result : DLResult
  fileData : List Nat
  events : List Ev
deriving DecidableEq

/-- The receive loop of downloadFile (src/main.go lines 58 to 74): each
iteration re-arms the read deadline, reads from the connection, and writes
the bytes read to the file; io.EOF breaks the loop successfully, any other
read error aborts with a wrapped error, checked before the bytes are
written. -/
def recvLoop : List IterStep → List Nat → LoopOut
  | [], data => ⟨.blocked, data, []⟩
  | step :: rest, data =>
    match step.deadlineErr with
    | some m => ⟨.fail ("error setting read deadline: " ++ m), data, [.setDeadline]⟩
    | none =>
      match step.readErr with
      | some .eof => ⟨.ok, data, [.setDeadline, .connRead]⟩
      | some e => ⟨.fail ("error reading data from connection: " ++ e.message), data,
          [.setDeadline, .connRead]⟩
      | none =>
        match step.fileWriteErr with
        | some m => ⟨.fail ("error writing data to file: " ++ m), data,
            [.setDeadline, .connRead, .fileWrite step.readBytes]⟩
        | none =>
          let out := recvLoop rest (data ++ step.readBytes)
          ⟨out.result, out.fileData,
            .setDeadline :: .connRead :: .fileWrite step.readBytes :: out.events⟩

/-- Environment behaviour for one call of downloadFile: the outcome of the
request write, the outcome of os.Create, and the per-iteration behaviour of
the connection and the file. -/
structure DownloadEnv where
  writeReqErr : Option String
  createErr : Option String
  steps : List IterStep
deriving DecidableEq

/-- Output of downloadFile: result, event trace, and the output file
contents (none when the file was never created). -/
structure DLOut where
  result : DLResult
  events : List Ev
  fileData : Option (List Nat)
deriving DecidableEq

/-- The request line built by downloadFile (src/main.go line 46). -/
def requestLine (filename : String) : String := "GET " ++ filename ++ "\n"

set_option linter.unusedVariables false

/-- downloadFile (src/main.go lines 45 to 77): write the request line, create
the output file, then run the receive loop.  The deferred file.Close runs on
every return path after the file was created.  The bufferSize argument is the
allocation size of the read buffer; the per-read byte counts of the
environment are bounded by it in the claims that quantify over chunkings. -/
def downloadFile (env : DownloadEnv) (filename : String) (bufferSize : Nat) : DLOut :=
  match env.writeReqErr with
  | some m => ⟨.fail ("error sending request: " ++ m), [.writeReq (requestLine filename)], none⟩
  | none =>
    match env.createErr with
    | some m => ⟨.fail ("error creating file: " ++ m),
        [.writeReq (requestLine filename), .createFile filename], none⟩
    | none =>
      let out := recvLoop env.steps []
      match out.result with
      | .blocked => ⟨.blocked,
          .writeReq (requestLine filename) :: .createFile filename :: out.events,
          some out.fileData⟩
      | r => ⟨r,
          .writeReq (requestLine filename) :: .createFile filename ::
            (out.events ++ [.fileClose]),
          some out.fileData⟩

/-- One character of the class [a-zA-Z0-9._-] of FilenameRegex
(src/main.go line 42). -/
def isFilenameChar (c : Char) : Bool :=
  ('a' ≤ c && c ≤ 'z') || ('A' ≤ c && c ≤ 'Z') || ('0' ≤ c && c ≤ '9') ||
  c = '.' || c = '_' || c = '-'

/-- Full-string match of the compiled regex from src/main.go line 42: the
whole string consists of one or more characters of the class. -/
def filenameRegexMatch (s : String) : Bool :=
  !s.isEmpty && s.toList.all isFilenameChar

/-- validateFilename (src/main.go lines 79 to 84). -/
def validateFilename (filename : String) : Except String Unit :=
  if !(filenameRegexMatch filename) then
    Except.error ("invalid filename: " ++ filename)
  else
    Except.ok ()

/-- Environment behaviour for one run of main: the outcome of
net.DialTimeout, the outcome of opening the log file, and the behaviour seen
by downloadFile. -/
structure MainEnv where
  dialErr : Option String
  logOpenErr : Option String
  dl : DownloadEnv
deriving DecidableEq

/-- Output of a run of main: the exit code (none when the run never
terminates, a model artifact of an exhausted connection behaviour), the
lines printed to standard output, the lines written to the log file, and the
full event trace. -/
structure MainOut where
  exitCode : Option Nat
  stdout : List String
  logLines : List String
  events : List Ev
deriving DecidableEq

/-- The requested filename, a compile-time constant (src/main.go line 104). -/
def mainFilename : String := "test.txt"

/-- main (src/main.go lines 86 to 116).  Deferred conn.Close and
logFile.Close are registered after the corresponding successful open and run
only when main returns normally; os.Exit terminates the process without
running them (Go semantics), which the error branches reflect. -/
def mainRun (env : MainEnv) : MainOut :=
  match env.dialErr with
  | some m =>
    ⟨some 1, ["error connecting to server: " ++ m], [],
      [.dialEv, .printStdout ("error connecting to server: " ++ m), .exitProc 1]⟩
  | none =>
    match env.logOpenErr with
    | some m =>
      ⟨some 1, ["error creating log file: " ++ m], [],
        [.dialEv, .openLog, .printStdout ("error creating log file: " ++ m), .exitProc 1]⟩
    | none =>
      match validateFilename mainFilename with
      | .error e =>
        ⟨some 1, [], ["invalid filename: " ++ e],
          [.dialEv, .openLog, .validateCall mainFilename,
            .logWrite ("invalid filename: " ++ e), .exitProc 1]⟩
      | .ok _ =>
        let out := downloadFile env.dl mainFilename 8192
        match out.result with
        | .fail m =>
          ⟨some 1, [], ["error downloading file: " ++ m],
            [.dialEv, .openLog, .validateCall mainFilename] ++ out.events ++
              [.logWrite ("error downloading file: " ++ m), .exitProc 1]⟩
        | .blocked =>
          ⟨none, [], [],
            [.dialEv, .openLog, .validateCall mainFilename] ++ out.events⟩
        | .ok =>
          ⟨some 0, [], ["downloaded file " ++ mainFilename],
            [.dialEv, .openLog, .validateCall mainFilename] ++ out.events ++
              [.logWrite ("downloaded file " ++ mainFilename), .logClose, .connClose,
                .exitProc 0]⟩

/-- An iteration in which the deadline is armed, the read succeeds with the
given bytes, and the file write succeeds. -/
def goodStep (c : List Nat) : IterStep := ⟨none, c, none, none⟩

/-- An iteration in which the read reports end of stream with no bytes. -/
def eofStep : IterStep := ⟨none, [], some ReadErr.eof, none⟩

/-- The events emitted by a run of fully successful loop iterations, one
setDeadline, connRead, fileWrite triple per chunk. -/
def goodEvents (chunks : List (List Nat)) : List Ev :=
  (chunks.map fun c => [Ev.setDeadline, Ev.connRead, Ev.fileWrite c]).flatten

/-- Helper for readsArmed: the flag records whether the previous event was a
setDeadline, so a connRead is accepted only immediately after one. -/
def readsArmedAux : Bool → List Ev → Bool
  | _, [] => true
  | armed, Ev.connRead :: rest => armed && readsArmedAux false rest
  | _, Ev.setDeadline :: rest => readsArmedAux true rest
  | _, _ :: rest => readsArmedAux false rest

/-- Every connection read in the trace is immediately preceded by a
setDeadline event. -/
def readsArmed (evs : List Ev) : Bool := readsArmedAux false evs

/-- The concrete run exercising the file-creation failure path: dial and log
open succeed, os.Create fails with a permission error. -/
def createFailEnv : MainEnv := ⟨none, none, ⟨none, some "permission denied", []⟩⟩

/-- C3: validateFilename accepts exactly the non-empty strings made of
characters in [a-zA-Z0-9._-], and rejects everything else with an error
carrying the offending filename. -/
theorem validateFilename_matches_class (s : String) :
    (validateFilename s = Except.ok () ↔
      (s ≠ "" ∧ ∀ c ∈ s.toList, isFilenameChar c = true)) ∧
    (¬ (s ≠ "" ∧ ∀ c ∈ s.toList, isFilenameChar c = true) →
      validateFilename s = Except.error ("invalid filename: " ++ s)) := by
  have hempty : s.isEmpty = false ↔ s ≠ "" := by
    rw [← not_iff_not]
    simp [String.isEmpty_iff]
  have hmatch : filenameRegexMatch s = true ↔
      (s ≠ "" ∧ ∀ c ∈ s.toList, isFilenameChar c = true) := by
    simp [filenameRegexMatch, List.all_eq_true, hempty]
  constructor
  · constructor
    · intro h
      rw [← hmatch]
      by_contra hb
      simp only [Bool.not_eq_true] at hb
      simp [validateFilename, hb] at h
    · intro h
      rw [← hmatch] at h
      simp [validateFilename, h]
  · intro h
    rw [← hmatch] at h
    simp only [Bool.not_eq_true] at h
    simp [validateFilename, h]

theorem validateFilename_matches_class_witness :
    validateFilename "ab.txt" = Except.ok () ∧
    validateFilename "a b" = Except.error "invalid filename: a b" := by
  refine ⟨(validateFilename_matches_class "ab.txt").1.mpr (by decide), ?_⟩
  exact (validateFilename_matches_class "a b").2 (by decide)

/-- Running the loop on fully successful iterations first appends their bytes
to the file and their events to the trace, then continues with the tail. -/
theorem recvLoop_goodSteps (chunks : List (List Nat)) (tail : List IterStep)
    (acc : List Nat) :
    recvLoop (chunks.map goodStep ++ tail) acc =
      ⟨(recvLoop tail (acc ++ chunks.flatten)).result,
       (recvLoop tail (acc ++ chunks.flatten)).fileData,
       goodEvents chunks ++ (recvLoop tail (acc ++ chunks.flatten)).events⟩ := by
  induction chunks generalizing acc with
  | nil => simp [goodEvents]
  | cons c cs ih =>
    simp only [List.map_cons, List.cons_append, recvLoop, goodStep, List.append_eq]
    rw [ih]
    simp [goodEvents, List.append_assoc]

/-- C2: for every byte sequence and every chunking of it into reads of at
most the 8192-byte buffer, followed by a clean end of stream, downloadFile
succeeds and the output file holds exactly those bytes. -/
theorem downloadFile_writes_exact_bytes (filename : String) (data : List Nat)
    (chunks : List (List Nat)) (hjoin : chunks.flatten = data)
    (hsize : ∀ c ∈ chunks, c.length ≤ 8192) :
    (downloadFile ⟨none, none, chunks.map goodStep ++ [eofStep]⟩ filename 8192).result
        = DLResult.ok ∧
    (downloadFile ⟨none, none, chunks.map goodStep ++ [eofStep]⟩ filename 8192).fileData
        = some data := by
  have heof : ∀ d : List Nat, recvLoop [eofStep] d =
      ⟨DLResult.ok, d, [Ev.setDeadline, Ev.connRead]⟩ := fun d => rfl
  have h := recvLoop_goodSteps chunks [eofStep] []
  rw [heof] at h
  simp only [List.nil_append] at h
  simp [downloadFile, h, hjoin]

theorem downloadFile_writes_exact_bytes_witness :
    (downloadFile ⟨none, none, [[1, 2], [3]].map goodStep ++ [eofStep]⟩ "a.txt" 8192).result
        = DLResult.ok ∧
    (downloadFile ⟨none, none, [[1, 2], [3]].map goodStep ++ [eofStep]⟩ "a.txt" 8192).fileData
        = some [1, 2, 3] :=
  downloadFile_writes_exact_bytes "a.txt" [1, 2, 3] [[1, 2], [3]] (by decide) (by decide)

/-- C4: a read that reports end of stream makes downloadFile return success,
while a timeout or any other transport read error makes it return the
wrapped read error. -/
theorem eof_success_other_read_errors_fail :
    (∀ (fn : String) (chunks : List (List Nat)) (bs : List Nat),
      (downloadFile ⟨none, none, chunks.map goodStep ++ [⟨none, bs, some ReadErr.eof, none⟩]⟩
          fn 8192).result = DLResult.ok) ∧
    (∀ (fn : String) (chunks : List (List Nat)) (bs : List Nat) (m : String)
        (rest : List IterStep),
      (downloadFile
          ⟨none, none, chunks.map goodStep ++ ⟨none, bs, some (ReadErr.timeout m), none⟩ :: rest⟩
          fn 8192).result
        = DLResult.fail ("error reading data from connection: " ++ m)) ∧
    (∀ (fn : String) (chunks : List (List Nat)) (bs : List Nat) (m : String)
        (rest : List IterStep),
      (downloadFile
          ⟨none, none, chunks.map goodStep ++ ⟨none, bs, some (ReadErr.other m), none⟩ :: rest⟩
          fn 8192).result
        = DLResult.fail ("error reading data from connection: " ++ m)) := by
  refine ⟨?_, ?_, ?_⟩
  · intro fn chunks bs
    have h := recvLoop_goodSteps chunks [⟨none, bs, some ReadErr.eof, none⟩] []
    have heof : ∀ d : List Nat, recvLoop [⟨none, bs, some ReadErr.eof, none⟩] d =
        ⟨DLResult.ok, d, [Ev.setDeadline, Ev.connRead]⟩ := fun d => rfl
    rw [heof] at h
    simp [downloadFile, h]
  · intro fn chunks bs m rest
    have h := recvLoop_goodSteps chunks (⟨none, bs, some (ReadErr.timeout m), none⟩ :: rest) []
    have herr : ∀ d : List Nat,
        recvLoop (⟨none, bs, some (ReadErr.timeout m), none⟩ :: rest) d =
        ⟨DLResult.fail ("error reading data from connection: " ++ m), d,
          [Ev.setDeadline, Ev.connRead]⟩ := fun d => rfl
    rw [herr] at h
    simp [downloadFile, h]
  · intro fn chunks bs m rest
    have h := recvLoop_goodSteps chunks (⟨none, bs, some (ReadErr.other m), none⟩ :: rest) []
    have herr : ∀ d : List Nat,
        recvLoop (⟨none, bs, some (ReadErr.other m), none⟩ :: rest) d =
        ⟨DLResult.fail ("error reading data from connection: " ++ m), d,
          [Ev.setDeadline, Ev.connRead]⟩ := fun d => rfl
    rw [herr] at h
    simp [downloadFile, h]

/-- C5: when the final read returns bytes together with the end-of-stream
signal, the loop exits before writing them, so the output file holds exactly
the bytes of the earlier successful reads and not the final ones. -/
theorem final_read_bytes_with_eof_dropped (fn : String) (chunks : List (List Nat))
    (b : Nat) (bt : List Nat) :
    (downloadFile ⟨none, none, chunks.map goodStep ++ [⟨none, b :: bt, some ReadErr.eof, none⟩]⟩
        fn 8192).result = DLResult.ok ∧
    (downloadFile ⟨none, none, chunks.map goodStep ++ [⟨none, b :: bt, some ReadErr.eof, none⟩]⟩
        fn 8192).fileData = some chunks.flatten ∧
    (downloadFile ⟨none, none, chunks.map goodStep ++ [⟨none, b :: bt, some ReadErr.eof, none⟩]⟩
        fn 8192).events =
      Ev.writeReq (requestLine fn) :: Ev.createFile fn ::
        (goodEvents chunks ++ [Ev.setDeadline, Ev.connRead, Ev.fileClose]) := by
  have h := recvLoop_goodSteps chunks [⟨none, b :: bt, some ReadErr.eof, none⟩] []
  have heof : ∀ d : List Nat, recvLoop [⟨none, b :: bt, some ReadErr.eof, none⟩] d =
      ⟨DLResult.ok, d, [Ev.setDeadline, Ev.connRead]⟩ := fun d => rfl
  rw [heof] at h
  simp only [List.nil_append] at h
  refine ⟨?_, ?_, ?_⟩
  · simp [downloadFile, h]
  · simp [downloadFile, h]
  · simp [downloadFile, h]

/-- A trace without any connection read is vacuously armed. -/
theorem readsArmedAux_of_no_read (b : Bool) (l : List Ev) (h : Ev.connRead ∉ l) :
    readsArmedAux b l = true := by
  induction l generalizing b with
  | nil => rfl
  | cons e rest ih =>
    have hne : e ≠ Ev.connRead := fun he => h (he ▸ List.mem_cons_self e rest)
    have hrest : Ev.connRead ∉ rest := fun hr => h (List.mem_cons_of_mem e hr)
    cases e <;> simp_all [readsArmedAux]

/-- The receive loop arms the deadline immediately before every read, for
any continuation of the trace that contains no further read. -/
theorem recvLoop_events_armed (steps : List IterStep) (acc : List Nat) (l : List Ev)
    (h : Ev.connRead ∉ l) :
    readsArmedAux false ((recvLoop steps acc).events ++ l) = true := by
  induction steps generalizing acc with
  | nil => simpa [recvLoop] using readsArmedAux_of_no_read false l h
  | cons step rest ih =>
    rcases step with ⟨de, rb, re, fe⟩
    cases de with
    | some m => simp [recvLoop, readsArmedAux, readsArmedAux_of_no_read _ l h]
    | none =>
      cases re with
      | some e =>
        cases e <;> simp [recvLoop, readsArmedAux, readsArmedAux_of_no_read _ l h]
      | none =>
        cases fe with
        | some m =>
          simp [recvLoop, readsArmedAux, readsArmedAux_of_no_read _ l h]
        | none =>
          simpa [recvLoop, readsArmedAux] using ih (acc ++ rb)

/-- C6: in every run of downloadFile the read deadline is re-armed
immediately before every connection read, and a failure to set the deadline
is returned as a fatal wrapped deadline error. -/
theorem deadline_rearmed_before_every_read :
    (∀ (env : DownloadEnv) (fn : String) (bufferSize : Nat),
      readsArmed (downloadFile env fn bufferSize).events = true) ∧
    (∀ (fn : String) (bufferSize : Nat) (pre : List (List Nat)) (m : String)
        (rb : List Nat) (re : Option ReadErr) (fe : Option String) (rest : List IterStep),
      (downloadFile ⟨none, none, pre.map goodStep ++ ⟨some m, rb, re, fe⟩ :: rest⟩
          fn bufferSize).result
        = DLResult.fail ("error setting read deadline: " ++ m)) := by
  constructor
  · intro env fn bufferSize
    rcases env with ⟨wr, ce, steps⟩
    cases wr with
    | some m => simp [downloadFile, readsArmed, readsArmedAux]
    | none =>
      cases ce with
      | some m => simp [downloadFile, readsArmed, readsArmedAux]
      | none =>
        cases hr : (recvLoop steps []).result with
        | ok =>
          have := recvLoop_events_armed steps [] [Ev.fileClose] (by decide)
          simp [downloadFile, hr, readsArmed, readsArmedAux, this]
        | fail m =>
          have := recvLoop_events_armed steps [] [Ev.fileClose] (by decide)
          simp [downloadFile, hr, readsArmed, readsArmedAux, this]
        | blocked =>
          have := recvLoop_events_armed steps [] [] (by decide)
          simp only [List.append_nil] at this
          simp [downloadFile, hr, readsArmed, readsArmedAux, this]
  · intro fn bufferSize pre m rb re fe rest
    have h := recvLoop_goodSteps pre (⟨some m, rb, re, fe⟩ :: rest) []
    have hbad : ∀ d : List Nat, recvLoop (⟨some m, rb, re, fe⟩ :: rest) d =
        ⟨DLResult.fail ("error setting read deadline: " ++ m), d, [Ev.setDeadline]⟩ :=
      fun d => rfl
    rw [hbad] at h
    simp [downloadFile, h]

/-- The first event of every downloadFile run is the full request line being
written to the connection. -/
theorem downloadFile_events_head (env : DownloadEnv) (fn : String) (bufferSize : Nat) :
    (downloadFile env fn bufferSize).events.head? = some (Ev.writeReq (requestLine fn)) := by
  rcases env with ⟨wr, ce, steps⟩
  cases wr with
  | some m => rfl
  | none =>
    cases ce with
    | some m => rfl
    | none =>
      cases hr : (recvLoop steps []).result <;> simp [downloadFile, hr]

/-- C7: the request line GET filename newline is written to the connection
before the output file is created, and a request-write failure returns the
wrapped transport error with no file ever created. -/
theorem request_sent_before_file_create :
    (∀ (env : DownloadEnv) (fn : String) (bufferSize : Nat),
      (downloadFile env fn bufferSize).events.head? = some (Ev.writeReq (requestLine fn))) ∧
    (∀ (m : String) (ce : Option String) (steps : List IterStep) (fn : String)
        (bufferSize : Nat),
      (downloadFile ⟨some m, ce, steps⟩ fn bufferSize).result
          = DLResult.fail ("error sending request: " ++ m) ∧
      (downloadFile ⟨some m, ce, steps⟩ fn bufferSize).fileData = none ∧
      ∀ n, Ev.createFile n ∉ (downloadFile ⟨some m, ce, steps⟩ fn bufferSize).events) := by
  refine ⟨downloadFile_events_head, ?_⟩
  intro m ce steps fn bufferSize
  refine ⟨rfl, rfl, ?_⟩
  intro n
  simp [downloadFile]

/-- The hard-coded filename passes the validator. -/
theorem mainFilename_valid : validateFilename mainFilename = Except.ok () := by
  have h : filenameRegexMatch mainFilename = true := by decide
  simp [validateFilename, h]

/-- C1: on the run where dial and the log open succeed but file creation
fails, the log file does receive the error entry and the process exits with
status 1, but os.Exit skips the deferred calls, so neither the connection
nor the log file is ever closed, contradicting the claimed invariant. -/
theorem createFail_skips_deferred_closes :
    (mainRun createFailEnv).logLines =
      ["error downloading file: " ++ ("error creating file: " ++ "permission denied")] ∧
    (mainRun createFailEnv).exitCode = some 1 ∧
    Ev.connClose ∉ (mainRun createFailEnv).events ∧
    Ev.logClose ∉ (mainRun createFailEnv).events := by
  refine ⟨?_, ?_, ?_, ?_⟩ <;> decide

/-- C8: the process exits 0 exactly when dial, log open, validation and
download all succeed; otherwise it exits 1 (or, as a model artifact, never
terminates); a connection failure is printed to standard output with nothing
attempted after it; a download failure is logged to the log file only. -/
theorem exit_code_zero_iff_success :
    (∀ env : MainEnv, (mainRun env).exitCode = some 0 ↔
      (env.dialErr = none ∧ env.logOpenErr = none ∧
        (downloadFile env.dl mainFilename 8192).result = DLResult.ok)) ∧
    (∀ env : MainEnv, (mainRun env).exitCode = some 0 ∨
      (mainRun env).exitCode = some 1 ∨ (mainRun env).exitCode = none) ∧
    (∀ (m : String) (lo : Option String) (dl : DownloadEnv),
      (mainRun ⟨some m, lo, dl⟩).stdout = ["error connecting to server: " ++ m] ∧
      (mainRun ⟨some m, lo, dl⟩).exitCode = some 1 ∧
      (∀ n, Ev.validateCall n ∉ (mainRun ⟨some m, lo, dl⟩).events) ∧
      (∀ s, Ev.writeReq s ∉ (mainRun ⟨some m, lo, dl⟩).events)) ∧
    (∀ (dl : DownloadEnv) (m : String),
      (downloadFile dl mainFilename 8192).result = DLResult.fail m →
      (mainRun ⟨none, none, dl⟩).logLines = ["error downloading file: " ++ m] ∧
      (mainRun ⟨none, none, dl⟩).stdout = [] ∧
      (mainRun ⟨none, none, dl⟩).exitCode = some 1) := by
  refine ⟨?_, ?_, ?_, ?_⟩
  · intro env
    rcases env with ⟨d, lo, dl⟩
    cases d with
    | some m => simp [mainRun]
    | none =>
      cases lo with
      | some m => simp [mainRun]
      | none =>
        cases hr : (downloadFile dl mainFilename 8192).result with
        | ok => simp [mainRun, mainFilename_valid, hr]
        | fail m => simp [mainRun, mainFilename_valid, hr]
        | blocked => simp [mainRun, mainFilename_valid, hr]
  · intro env
    rcases env with ⟨d, lo, dl⟩
    cases d with
    | some m => simp [mainRun]
    | none =>
      cases lo with
      | some m => simp [mainRun]
      | none =>
        cases hr : (downloadFile dl mainFilename 8192).result with
        | ok => simp [mainRun, mainFilename_valid, hr]
        | fail m => simp [mainRun, mainFilename_valid, hr]
        | blocked => simp [mainRun, mainFilename_valid, hr]
  · intro m lo dl
    refine ⟨rfl, rfl, ?_, ?_⟩ <;> intro x <;> simp [mainRun]
  · intro dl m h
    refine ⟨?_, ?_, ?_⟩ <;> simp [mainRun, mainFilename_valid, h]

theorem exit_code_zero_iff_success_witness :
    (mainRun ⟨none, none, ⟨some "broken pipe", none, []⟩⟩).logLines =
      ["error downloading file: " ++ ("error sending request: " ++ "broken pipe")] ∧
    (mainRun ⟨none, none, ⟨some "broken pipe", none, []⟩⟩).stdout = [] ∧
    (mainRun ⟨none, none, ⟨some "broken pipe", none, []⟩⟩).exitCode = some 1 :=
  exit_code_zero_iff_success.2.2.2 ⟨some "broken pipe", none, []⟩
    ("error sending request: " ++ "broken pipe") (by decide)

/-- C9: when the dial fails, the run never opens or writes the log file; the
error is reported on standard output alone. -/
theorem connect_failure_leaves_log_untouched (m : String) (lo : Option String)
    (dl : DownloadEnv) :
    Ev.openLog ∉ (mainRun ⟨some m, lo, dl⟩).events ∧
    (∀ s, Ev.logWrite s ∉ (mainRun ⟨some m, lo, dl⟩).events) ∧
    (mainRun ⟨some m, lo, dl⟩).logLines = [] ∧
    (mainRun ⟨some m, lo, dl⟩).stdout = ["error connecting to server: " ++ m] := by
  refine ⟨?_, ?_, rfl, rfl⟩
  · simp [mainRun]
  · intro s
    simp [mainRun]

/-- The receive loop never emits a validation event. -/
theorem validateCall_notin_recvLoop (steps : List IterStep) (acc : List Nat) (n : String) :
    Ev.validateCall n ∉ (recvLoop steps acc).events := by
  induction steps generalizing acc with
  | nil => simp [recvLoop]
  | cons step rest ih =>
    rcases step with ⟨de, rb, re, fe⟩
    cases de with
    | some m => simp [recvLoop]
    | none =>
      cases re with
      | some e => cases e <;> simp [recvLoop]
      | none =>
        cases fe with
        | some m => simp [recvLoop]
        | none => simp [recvLoop, ih (acc ++ rb)]

/-- downloadFile never emits a validation event. -/
theorem validateCall_notin_downloadFile (env : DownloadEnv) (fn : String)
    (bufferSize : Nat) (n : String) :
    Ev.validateCall n ∉ (downloadFile env fn bufferSize).events := by
  rcases env with ⟨wr, ce, steps⟩
  cases wr with
  | some m => simp [downloadFile]
  | none =>
    cases ce with
    | some m => simp [downloadFile]
    | none =>
      cases hr : (recvLoop steps []).result <;>
        simp [downloadFile, hr, validateCall_notin_recvLoop]

/-- Every downloadFile run contains the request write event. -/
theorem writeReq_mem_downloadFile (env : DownloadEnv) (fn : String) (bufferSize : Nat) :
    Ev.writeReq (requestLine fn) ∈ (downloadFile env fn bufferSize).events := by
  rcases env with ⟨wr, ce, steps⟩
  cases wr with
  | some m => simp [downloadFile]
  | none =>
    cases ce with
    | some m => simp [downloadFile]
    | none =>
      cases hr : (recvLoop steps []).result <;> simp [downloadFile, hr]

/-- C10: the requested filename is the constant test.txt in every run, it
passes the validator, and whenever dial and log open succeed the run goes on
to issue the request, so validation never aborts a run. -/
theorem filename_constant_always_valid :
    mainFilename = "test.txt" ∧
    validateFilename mainFilename = Except.ok () ∧
    (∀ (env : MainEnv) (n : String),
      Ev.validateCall n ∈ (mainRun env).events → n = "test.txt") ∧
    (∀ dl : DownloadEnv,
      Ev.writeReq (requestLine mainFilename) ∈ (mainRun ⟨none, none, dl⟩).events) := by
  refine ⟨rfl, mainFilename_valid, ?_, ?_⟩
  · intro env n h
    rcases env with ⟨d, lo, dl⟩
    cases d with
    | some m => simp [mainRun] at h
    | none =>
      cases lo with
      | some m => simp [mainRun] at h
      | none =>
        cases hr : (downloadFile dl mainFilename 8192).result with
        | ok =>
          simp [mainRun, mainFilename_valid, hr,
            validateCall_notin_downloadFile dl mainFilename 8192 n] at h
          exact h
        | fail m =>
          simp [mainRun, mainFilename_valid, hr,
            validateCall_notin_downloadFile dl mainFilename 8192 n] at h
          exact h
        | blocked =>
          simp [mainRun, mainFilename_valid, hr,
            validateCall_notin_downloadFile dl mainFilename 8192 n] at h
          exact h
  · intro dl
    cases hr : (downloadFile dl mainFilename 8192).result with
    | ok =>
      simp [mainRun, mainFilename_valid, hr,
        writeReq_mem_downloadFile dl mainFilename 8192]
    | fail m =>
      simp [mainRun, mainFilename_valid, hr,
        writeReq_mem_downloadFile dl mainFilename 8192]
    | blocked =>
      simp [mainRun, mainFilename_valid, hr,
        writeReq_mem_downloadFile dl mainFilename 8192]

theorem filename_constant_always_valid_witness :
    ("test.txt" : String) = "test.txt" ∧ validateFilename mainFilename = Except.ok () :=
  ⟨filename_constant_always_valid.2.2.1 ⟨none, none, ⟨none, none, []⟩⟩ "test.txt" (by decide),
   filename_constant_always_valid.2.1⟩
